import Mathlib

/-!
# go-channel: socket channels and the URL handler registry

A shallow embedding of `tcp.go` and `registry.go`.

The program talks to the outside world (clock, sockets, dialer, URL parser).
The outside world is an `Env`: every answer it gives is a function of the
`Trace`, the chronological list of calls made so far, so an `Env` can encode
any history-dependent behaviour of the connection, the dialer and the clock.
Every operation takes the trace before the call and returns the trace after
it; the events appended are exactly the calls the operation makes.

A call through a nil interface value or a nil pointer aborts the Go program;
the embedding returns `Outcome.nilDeref` there.  The `for` loop of `Write`
has no bound, so it takes fuel and returns `Outcome.noFuel` when it runs out.
-/

namespace Channel

/-! ## Values -/

/-- Go `time.Duration`: a count of nanoseconds. -/
abbrev Duration := Int

/-- Go `time.Time`, as the number of nanoseconds since the Unix epoch. -/
structure Time where
  ns : Int
  deriving DecidableEq, Repr

/-- The value of an unset `var deadline time.Time`: January 1, year 1, 00:00 UTC,
which is 62135596800 seconds before the Unix epoch. -/
def Time.zero : Time := ⟨-62135596800 * 1000000000⟩

/-- Go `t.Add(d)`. -/
def Time.Add (t : Time) (d : Duration) : Time := ⟨t.ns + d⟩

/-- Go `t.After(u)`: is `t` strictly later than `u`. -/
def Time.After (t u : Time) : Bool := decide (u.ns < t.ns)

/-- Two-complement wrap of an integer into the range of `int64`. -/
def wrapInt64 (x : Int) : Int := (x + 2 ^ 63) % 2 ^ 64 - 2 ^ 63

/-- Go `t.UnixNano()`: nanoseconds since the Unix epoch as an `int64`; the
result wraps around when it does not fit. -/
def Time.UnixNano (t : Time) : Int := wrapInt64 t.ns

/-- Go `error` values that are not nil.  `ErrClosedPipe` is the sentinel
`io.ErrClosedPipe`, `New text` is the value made by `errors.New(text)`, and
`Foreign code` is any other error value handed out by the outside world. -/
inductive Error where
  | ErrClosedPipe
  | New (text : String)
  | Foreign (code : Nat)
  deriving DecidableEq, Repr

/-- Go `err.Error()`. -/
def Error.message : Error → String
  | .ErrClosedPipe => "io: read/write on closed pipe"
  | .New text => text
  | .Foreign code => "foreign error " ++ toString code

/-- A byte slice. -/
abbrev Bytes := List (Fin 256)

/-- Identity of a live `net.Conn` object handed out by the dialer. -/
abbrev ConnId := Nat

/-- Go `net.Addr`: `Network()` and `String()`. -/
structure Addr where
  network : String
  text : String
  deriving DecidableEq, Repr

/-- The part of `url.URL` the program reads. -/
structure URL where
  Scheme : String
  Host : String
  deriving DecidableEq, Repr

/-! ## The outside world -/

/-- One call made to the outside world. -/
inductive Event where
  | now
  | dial (proto addr : String)
  | dialTimeout (proto addr : String) (timeout : Duration)
  | read (c : ConnId) (p : Bytes)
  | write (c : ConnId) (p : Bytes)
  | close (c : ConnId)
  | localAddr (c : ConnId)
  | remoteAddr (c : ConnId)
  | setDeadline (c : ConnId) (t : Time)
  | setReadDeadline (c : ConnId) (t : Time)
  | setWriteDeadline (c : ConnId) (t : Time)
  deriving DecidableEq, Repr

/-- Chronological list of the calls made so far. -/
abbrev Trace := List Event

/-- Result of `net.Dial` and `net.DialTimeout`: a connection and a nil error,
or a nil connection and an error. -/
inductive DialResult where
  | ok (c : ConnId)
  | failed (e : Error)
  deriving DecidableEq, Repr

/-- First component of the pair returned by a dial: nil on failure. -/
def DialResult.conn : DialResult → Option ConnId
  | .ok c => some c
  | .failed _ => none

/-- Second component of the pair returned by a dial: nil on success. -/
def DialResult.err : DialResult → Option Error
  | .ok _ => none
  | .failed e => some e

/-- Result of `url.Parse`: a URL and a nil error, or a nil URL and an error. -/
inductive ParseResult where
  | ok (u : URL)
  | failed (e : Error)
  deriving DecidableEq, Repr

/-- First component of the pair returned by `url.Parse`: nil on failure. -/
def ParseResult.url : ParseResult → Option URL
  | .ok u => some u
  | .failed _ => none

/-- Second component of the pair returned by `url.Parse`: nil on success. -/
def ParseResult.err : ParseResult → Option Error
  | .ok _ => none
  | .failed e => some e

/-- Behaviour of everything outside the package.  Each answer may depend on
the whole history of calls. -/
structure Env where
  /-- Reading of `time.Now()`. -/
  timeNow : Trace → Time
  /-- Answer of `net.Dial(proto, addr)`. -/
  netDial : Trace → String → String → DialResult
  /-- Answer of `net.DialTimeout(proto, addr, timeout)`. -/
  netDialTimeout : Trace → String → String → Duration → DialResult
  /-- Answer of `conn.Read(p)`: the buffer as filled, `n` and `err`. -/
  connRead : Trace → ConnId → Bytes → Bytes × Int × Option Error
  /-- Answer of `conn.Write(p)`: `n` and `err`. -/
  connWrite : Trace → ConnId → Bytes → Int × Option Error
  /-- Answer of `conn.Close()`. -/
  connClose : Trace → ConnId → Option Error
  /-- Answer of `conn.LocalAddr()`. -/
  connLocalAddr : Trace → ConnId → Option Addr
  /-- Answer of `conn.RemoteAddr()`. -/
  connRemoteAddr : Trace → ConnId → Option Addr
  /-- Answer of `conn.SetDeadline(t)`. -/
  connSetDeadline : Trace → ConnId → Time → Option Error
  /-- Answer of `conn.SetReadDeadline(t)`. -/
  connSetReadDeadline : Trace → ConnId → Time → Option Error
  /-- Answer of `conn.SetWriteDeadline(t)`. -/
  connSetWriteDeadline : Trace → ConnId → Time → Option Error
  /-- Answer of `url.Parse(s)`. -/
  urlParse : String → ParseResult

/-- How a call ends: it returns, it aborts on a nil dereference, or the
fuel given to an unbounded loop ran out. -/
inductive Outcome (α : Type) where
  | returned (a : α)
  | nilDeref
  | noFuel
  deriving DecidableEq, Repr

/-! ## tcp.go -/

/-- The struct `SocketChannel`.  `conn` is an interface value and may be nil. -/
structure SocketChannel where
  peerAddr : String
  conn : Option ConnId
  timeout : Duration
  proto : String
  manualTimeout : Bool
  deriving DecidableEq, Repr

/-- A value of the interface `Channel`: nil, or a pointer to a `SocketChannel`
(the only implementation in the package). -/
abbrev ChannelVal := Option SocketChannel

/-- Go `NewSocketChannel(proto, dest, timeout)`. -/
def NewSocketChannel (env : Env) (proto dest : String) (timeout : Duration) (tr : Trace) :
    (ChannelVal × Option Error) × Trace :=
  let r := if timeout > 0 then env.netDialTimeout tr proto dest timeout
           else env.netDial tr proto dest
  let tr1 := tr ++ [if timeout > 0 then Event.dialTimeout proto dest timeout
                    else Event.dial proto dest]
  match r with
  | .failed e => ((none, some e), tr1)
  | .ok c =>
    ((some { peerAddr := dest, conn := some c, timeout := timeout, proto := proto,
             manualTimeout := false }, none), tr1)

/-- Go `NewTCPChannel(dest, timeout)`; `dest` is a pointer and may be nil. -/
def NewTCPChannel (env : Env) (dest : Option URL) (timeout : Duration) (tr : Trace) :
    Outcome ((ChannelVal × Option Error) × Trace) :=
  match dest with
  | none => .nilDeref
  | some u => .returned (NewSocketChannel env "tcp" u.Host timeout tr)

/-- Go `NewUDPChannel(dest, timeout)`; `dest` is a pointer and may be nil. -/
def NewUDPChannel (env : Env) (dest : Option URL) (timeout : Duration) (tr : Trace) :
    Outcome ((ChannelVal × Option Error) × Trace) :=
  match dest with
  | none => .nilDeref
  | some u => .returned (NewSocketChannel env "udp" u.Host timeout tr)

/-- Go `NewChannelFromSocket(connection, timeout)`. -/
def NewChannelFromSocket (env : Env) (connection : Option ConnId) (timeout : Duration)
    (tr : Trace) : Outcome (ChannelVal × Trace) :=
  match connection with
  | none => .nilDeref
  | some c =>
    match env.connRemoteAddr tr c with
    | none => .nilDeref
    | some a1 =>
      let tr1 := tr ++ [Event.remoteAddr c]
      match env.connRemoteAddr tr1 c with
      | none => .nilDeref
      | some a2 =>
        .returned (some { peerAddr := a1.text, conn := some c, timeout := timeout,
                          proto := a2.network, manualTimeout := false },
                   tr1 ++ [Event.remoteAddr c])

namespace SocketChannel

/-- Go `WaitForNonEmpty(unused)`. -/
def WaitForNonEmpty (_t : SocketChannel) (_unused : Duration) : Option Error := none

/-- Go `NextBackend()`: the body is empty; the result is the channel after the call. -/
def NextBackend (t : SocketChannel) : SocketChannel := t

/-- Go `Close()`. -/
def Close (env : Env) (t : SocketChannel) (tr : Trace) : Outcome (Option Error × Trace) :=
  match t.conn with
  | none => .nilDeref
  | some c => .returned (env.connClose tr c, tr ++ [Event.close c])

/-- Go `LocalAddr()`. -/
def LocalAddr (env : Env) (t : SocketChannel) (tr : Trace) : Outcome (Option Addr × Trace) :=
  match t.conn with
  | none => .nilDeref
  | some c => .returned (env.connLocalAddr tr c, tr ++ [Event.localAddr c])

/-- Go `RemoteAddr()`. -/
def RemoteAddr (env : Env) (t : SocketChannel) (tr : Trace) : Outcome (Option Addr × Trace) :=
  match t.conn with
  | none => .nilDeref
  | some c => .returned (env.connRemoteAddr tr c, tr ++ [Event.remoteAddr c])

/-- Go `SetDeadline(t)`: the flag is set before the connection is touched. -/
def SetDeadline (env : Env) (s : SocketChannel) (t : Time) (tr : Trace) :
    Outcome (Option Error × SocketChannel × Trace) :=
  let s1 := { s with manualTimeout := true }
  match s1.conn with
  | none => .nilDeref
  | some c => .returned (env.connSetDeadline tr c t, s1, tr ++ [Event.setDeadline c t])

/-- Go `SetReadDeadline(t)`. -/
def SetReadDeadline (env : Env) (s : SocketChannel) (t : Time) (tr : Trace) :
    Outcome (Option Error × SocketChannel × Trace) :=
  let s1 := { s with manualTimeout := true }
  match s1.conn with
  | none => .nilDeref
  | some c => .returned (env.connSetReadDeadline tr c t, s1, tr ++ [Event.setReadDeadline c t])

/-- Go `SetWriteDeadline(t)`. -/
def SetWriteDeadline (env : Env) (s : SocketChannel) (t : Time) (tr : Trace) :
    Outcome (Option Error × SocketChannel × Trace) :=
  let s1 := { s with manualTimeout := true }
  match s1.conn with
  | none => .nilDeref
  | some c => .returned (env.connSetWriteDeadline tr c t, s1, tr ++ [Event.setWriteDeadline c t])

/-- Go `Read(p)`: returns the filled buffer, `n` and `err`, the channel and the trace. -/
def Read (env : Env) (t : SocketChannel) (p : Bytes) (tr : Trace) :
    Outcome ((Bytes × Int × Option Error) × SocketChannel × Trace) :=
  if t.timeout > 0 then
    let deadline := (env.timeNow tr).Add t.timeout
    let tr1 := tr ++ [Event.now]
    match t.conn with
    | none => .nilDeref
    | some c =>
      let tr2 := tr1 ++ [Event.setReadDeadline c deadline]
      .returned (env.connRead tr2 c p, t, tr2 ++ [Event.read c p])
  else
    match t.conn with
    | none => .nilDeref
    | some c => .returned (env.connRead tr c p, t, tr ++ [Event.read c p])

/-- Go `GetAllSubchannels()`. -/
def GetAllSubchannels (t : SocketChannel) : List ChannelVal := [some t]

/-- Go `NumBackends()`, a `uint64`. -/
def NumBackends (_s : SocketChannel) : Nat := 1

/-- What one pass through the body of the `for` loop of `Write` does: it
leaves the function with `(n, err)`, goes round again, or aborts. -/
inductive Pass where
  | exit (n : Int) (err : Option Error) (t : SocketChannel) (tr : Trace)
  | again (t : SocketChannel) (tr : Trace)
  | nilDeref
  deriving DecidableEq, Repr

/-- The trace after the statement
`if deadline.UnixNano() > 0 { t.conn.SetWriteDeadline(deadline) }`. -/
def armWriteDeadline (deadline : Time) (c : ConnId) (tr : Trace) : Trace :=
  if deadline.UnixNano > 0 then tr ++ [Event.setWriteDeadline c deadline] else tr

/-- The body of the `for` loop of `Write`. -/
def WriteBody (env : Env) (deadline : Time) (p : Bytes) (t : SocketChannel) (tr : Trace) :
    Pass :=
  match t.conn with
  | none => .nilDeref
  | some c =>
    let tr1 := armWriteDeadline deadline c tr
    let (n, err) := env.connWrite tr1 c p
    let tr2 := tr1 ++ [Event.write c p]
    match err with
    | none => .exit n none t tr2
    | some e =>
      if e = Error.ErrClosedPipe then
        let tr3 := tr2 ++ [Event.close c]
        let now := env.timeNow tr3
        let tr4 := tr3 ++ [Event.now]
        if now.After deadline then
          .exit n (some e) t tr4
        else
          let r := if t.timeout > 0
                   then env.netDialTimeout tr4 t.proto t.peerAddr t.timeout
                   else env.netDial tr4 t.proto t.peerAddr
          let tr5 := tr4 ++ [if t.timeout > 0
                             then Event.dialTimeout t.proto t.peerAddr t.timeout
                             else Event.dial t.proto t.peerAddr]
          let t1 := { t with conn := r.conn }
          match r.err with
          | some e1 => .exit n (some e1) t1 tr5
          | none => .again t1 tr5
      else
        .exit n (some e) t tr2

/-- The `for` loop of `Write`, run for at most `fuel` passes. -/
def WriteLoop (env : Env) (deadline : Time) (p : Bytes) :
    Nat → SocketChannel → Trace → Outcome ((Int × Option Error) × SocketChannel × Trace)
  | 0, _, _ => .noFuel
  | fuel + 1, t, tr =>
    match WriteBody env deadline p t tr with
    | .exit n err t1 tr1 => .returned ((n, err), t1, tr1)
    | .nilDeref => .nilDeref
    | .again t1 tr1 => WriteLoop env deadline p fuel t1 tr1

/-- The deadline `Write` computes before its loop, with the trace after it. -/
def WriteDeadline (env : Env) (t : SocketChannel) (tr : Trace) : Time × Trace :=
  if t.timeout > 0 then ((env.timeNow tr).Add t.timeout, tr ++ [Event.now])
  else (Time.zero, tr)

/-- Go `Write(p)`, with the loop run for at most `fuel` passes. -/
def Write (env : Env) (fuel : Nat) (t : SocketChannel) (p : Bytes) (tr : Trace) :
    Outcome ((Int × Option Error) × SocketChannel × Trace) :=
  let (deadline, tr0) := WriteDeadline env t tr
  WriteLoop env deadline p fuel t tr0

end SocketChannel

/-! ## registry.go -/

/-- The type `URLHandler`: a function from a URL pointer and a timeout to a
channel and an error.  A handler may call the outside world and may abort. -/
abbrev URLHandler := Option URL → Duration → Trace → Outcome ((ChannelVal × Option Error) × Trace)

/-- The type of the package variable `urlHandlers`, a `map[string]URLHandler`:
a list of entries with at most one entry for a key. -/
abbrev HandlerMap := List (String × URLHandler)

/-- Initial value of `urlHandlers`: `make(map[string]URLHandler)`. -/
def urlHandlers : HandlerMap := []

/-- Go `m[k] = v`: the entry for `k`, if any, is replaced. -/
def HandlerMap.set (m : HandlerMap) (k : String) (v : URLHandler) : HandlerMap :=
  (k, v) :: m.filter (fun e => decide (e.1 ≠ k))

/-- Go `v, ok = m[k]`. -/
def HandlerMap.get (m : HandlerMap) (k : String) : Option URLHandler :=
  (m.find? (fun e => decide (e.1 = k))).map (fun e => e.2)

/-- Go `RegisterURLHandler(schema, uh)`, as a change of the package variable. -/
def RegisterURLHandler (m : HandlerMap) (schema : String) (uh : URLHandler) : HandlerMap :=
  m.set schema uh

/-- Go `init()` of tcp.go. -/
def init (env : Env) (m : HandlerMap) : HandlerMap :=
  RegisterURLHandler (RegisterURLHandler m "tcp" (NewTCPChannel env)) "udp" (NewUDPChannel env)

/-- Go `ChannelFromURL(u, timeout)`; `u` is a pointer and may be nil. -/
def ChannelFromURL (m : HandlerMap) (u : Option URL) (timeout : Duration) (tr : Trace) :
    Outcome ((ChannelVal × Option Error) × Trace) :=
  match u with
  | none => .nilDeref
  | some url =>
    match m.get url.Scheme with
    | some h => h u timeout tr
    | none =>
      .returned ((none, some (Error.New ("No handler registered for schema " ++ url.Scheme))), tr)

/-- Go `ChannelFromString(dest, timeout)`. -/
def ChannelFromString (env : Env) (m : HandlerMap) (dest : String) (timeout : Duration)
    (tr : Trace) : Outcome ((ChannelVal × Option Error) × Trace) :=
  let u := (env.urlParse dest).url
  let err := (env.urlParse dest).err
  match err with
  | some _ =>
    match NewSocketChannel env "tcp" dest timeout tr with
    | ((_, none), tr1) => ChannelFromURL m u timeout tr1
    | ((_, some _), tr1) =>
      match NewSocketChannel env "udp" dest timeout tr1 with
      | ((c, some _), tr2) => .returned ((c, err), tr2)
      | ((_, none), tr2) => ChannelFromURL m u timeout tr2
  | none => ChannelFromURL m u timeout tr

/-! ## Definitions used to state the properties -/

namespace SocketChannel

/-- The channel and the trace at the head of the loop of `Write` once `k`
passes have gone round again; `none` when the loop was left before that. -/
def WriteHead (env : Env) (deadline : Time) (p : Bytes) :
    Nat → SocketChannel → Trace → Option (SocketChannel × Trace)
  | 0, t, tr => some (t, tr)
  | k + 1, t, tr =>
    match WriteBody env deadline p t tr with
    | .again t1 tr1 => WriteHead env deadline p k t1 tr1
    | _ => none

/-- The trace at the end of a pass that did not abort. -/
def Pass.trace? : Pass → Option Trace
  | .exit _ _ _ tr => some tr
  | .again _ tr => some tr
  | .nilDeref => none

end SocketChannel

/-- The package variable `urlHandlers` after a chronological list of
`RegisterURLHandler` calls, starting from a given map. -/
def registerAll (m : HandlerMap) (calls : List (String × URLHandler)) : HandlerMap :=
  calls.foldl (fun acc c => RegisterURLHandler acc c.1 c.2) m

/-- The handler that the last call registering `scheme` passed, in a
chronological list of `RegisterURLHandler` calls; `none` when no call
registered `scheme`.  This follows the wording of the specification. -/
def lastRegistered (calls : List (String × URLHandler)) (scheme : String) : Option URLHandler :=
  match calls.reverse.find? (fun c => decide (c.1 = scheme)) with
  | some c => some c.2
  | none => none

/-! ## Concrete worlds used to run the code -/

/-- A world in 2023 whose clock advances one nanosecond per call.  Connection 1
is broken: every write to it fails with `io.ErrClosedPipe`.  Every other
connection accepts three bytes.  An untimed dial gives connection 2, a timed
dial gives a fresh connection numbered by the length of the trace.  No
string parses as a URL. -/
def worldBrokenPipe : Env where
  timeNow := fun tr => ⟨1700000000000000000 + tr.length⟩
  netDial := fun _ _ _ => .ok 2
  netDialTimeout := fun tr _ _ _ => .ok tr.length
  connRead := fun _ _ p => (p, 0, some (.Foreign 7))
  connWrite := fun _ c _ => if c = 1 then (0, some .ErrClosedPipe) else (3, none)
  connClose := fun _ _ => none
  connLocalAddr := fun _ _ => none
  connRemoteAddr := fun _ _ => none
  connSetDeadline := fun _ _ _ => none
  connSetReadDeadline := fun _ _ _ => none
  connSetWriteDeadline := fun _ _ _ => none
  urlParse := fun _ => .failed (.Foreign 1)

/-- The world `worldBrokenPipe`, except that every dial is refused: a tcp dial
with error 2, any other dial with error 3. -/
def worldNoDial : Env :=
  { worldBrokenPipe with
    netDial := fun _ proto _ =>
      if proto = "tcp" then .failed (.Foreign 2) else .failed (.Foreign 3)
    netDialTimeout := fun _ proto _ _ =>
      if proto = "tcp" then .failed (.Foreign 2) else .failed (.Foreign 3) }

/-- The world `worldBrokenPipe`, except that only the very first call of the
history, a dial, is answered with connection 1; every later dial is refused. -/
def worldDialOnce : Env :=
  { worldBrokenPipe with
    netDial := fun tr _ _ => if tr = [] then .ok 1 else .failed (.Foreign 2)
    netDialTimeout := fun tr _ _ _ => if tr = [] then .ok 1 else .failed (.Foreign 2) }

/-- The world `worldBrokenPipe`, except that a tcp dial is refused with error 2
while any other dial gives connection 4. -/
def worldUdpOnly : Env :=
  { worldBrokenPipe with
    netDial := fun _ proto _ => if proto = "tcp" then .failed (.Foreign 2) else .ok 4
    netDialTimeout := fun _ proto _ _ =>
      if proto = "tcp" then .failed (.Foreign 2) else .ok 4 }

/-- A channel on connection 1 with a timeout of five nanoseconds. -/
def chanTimed : SocketChannel :=
  { peerAddr := "h:1", conn := some 1, timeout := 5, proto := "tcp", manualTimeout := false }

/-- A channel on connection 2, which is healthy in `worldBrokenPipe`, with a
timeout of five nanoseconds. -/
def chanHealthy : SocketChannel :=
  { peerAddr := "h:1", conn := some 2, timeout := 5, proto := "tcp", manualTimeout := false }

/-- A channel on connection 1 without a timeout. -/
def chanUntimed : SocketChannel :=
  { peerAddr := "h:1", conn := some 1, timeout := 0, proto := "tcp", manualTimeout := false }

/-! ## Lemmas on the loop of `Write` -/

namespace SocketChannel

theorem WriteBody_again_fields {env : Env} {deadline : Time} {p : Bytes}
    {t t1 : SocketChannel} {tr tr1 : Trace}
    (h : WriteBody env deadline p t tr = .again t1 tr1) :
    t1.peerAddr = t.peerAddr ∧ t1.timeout = t.timeout ∧ t1.proto = t.proto ∧
      t1.manualTimeout = t.manualTimeout := by
  unfold WriteBody at h
  split at h
  · cases h
  · simp only at h
    split at h
    · cases h
    · split at h
      · split at h
        · cases h
        · split at h
          · cases h
          · cases h
            exact ⟨rfl, rfl, rfl, rfl⟩
      · cases h

theorem WriteHead_fields {env : Env} {deadline : Time} {p : Bytes} :
    ∀ (k : Nat) {t tk : SocketChannel} {tr trk : Trace},
      WriteHead env deadline p k t tr = some (tk, trk) →
      tk.peerAddr = t.peerAddr ∧ tk.timeout = t.timeout ∧ tk.proto = t.proto ∧
        tk.manualTimeout = t.manualTimeout
  | 0, t, tk, tr, trk, h => by
    simp only [WriteHead, Option.some.injEq, Prod.mk.injEq] at h
    obtain ⟨h1, _⟩ := h
    subst h1
    exact ⟨rfl, rfl, rfl, rfl⟩
  | k + 1, t, tk, tr, trk, h => by
    simp only [WriteHead] at h
    split at h
    · rename_i t1 tr1 hb
      have h1 := WriteBody_again_fields hb
      have h2 := WriteHead_fields k h
      exact ⟨h2.1.trans h1.1, h2.2.1.trans h1.2.1, h2.2.2.1.trans h1.2.2.1,
        h2.2.2.2.trans h1.2.2.2⟩
    · cases h

theorem WriteLoop_of_head {env : Env} {deadline : Time} {p : Bytes} :
    ∀ (k : Nat) {t tk : SocketChannel} {tr trk : Trace} (f : Nat),
      WriteHead env deadline p k t tr = some (tk, trk) →
      WriteLoop env deadline p (k + f) t tr = WriteLoop env deadline p f tk trk
  | 0, t, tk, tr, trk, f, h => by
    simp only [WriteHead, Option.some.injEq, Prod.mk.injEq] at h
    obtain ⟨h1, h2⟩ := h
    subst h1 h2
    simp
  | k + 1, t, tk, tr, trk, f, h => by
    simp only [WriteHead] at h
    split at h
    · rename_i t1 tr1 hb
      have h2 := WriteLoop_of_head k f h
      rw [show k + 1 + f = (k + f) + 1 by omega, WriteLoop, hb]
      exact h2
    · cases h

theorem WriteHead_succ {env : Env} {deadline : Time} {p : Bytes} :
    ∀ (k : Nat) {t tk t1 : SocketChannel} {tr trk tr1 : Trace},
      WriteHead env deadline p k t tr = some (tk, trk) →
      WriteBody env deadline p tk trk = .again t1 tr1 →
      WriteHead env deadline p (k + 1) t tr = some (t1, tr1)
  | 0, t, tk, t1, tr, trk, tr1, h, hb => by
    simp only [WriteHead, Option.some.injEq, Prod.mk.injEq] at h
    obtain ⟨h1, h2⟩ := h
    subst h1 h2
    simp [WriteHead, hb]
  | k + 1, t, tk, t1, tr, trk, tr1, h, hb => by
    simp only [WriteHead] at h
    split at h
    · rename_i t2 tr2 hb2
      have h2 := WriteHead_succ k h hb
      rw [WriteHead, hb2]
      exact h2
    · cases h

/-- A pass whose write attempt does not fail with the closed-pipe error. -/
theorem WriteBody_final {env : Env} {deadline : Time} {p : Bytes} {t : SocketChannel}
    {tr : Trace} {c : ConnId} {n : Int} {err : Option Error}
    (hc : t.conn = some c)
    (hw : env.connWrite (armWriteDeadline deadline c tr) c p = (n, err))
    (he : err ≠ some Error.ErrClosedPipe) :
    WriteBody env deadline p t tr =
      .exit n err t (armWriteDeadline deadline c tr ++ [Event.write c p]) := by
  unfold WriteBody
  simp only [hc, hw]
  cases err with
  | none => rfl
  | some e =>
    have : e ≠ Error.ErrClosedPipe := fun h => he (by rw [h])
    simp [this]

/-- A pass whose write attempt fails with the closed-pipe error. -/
theorem WriteBody_closed {env : Env} {deadline : Time} {p : Bytes} {t : SocketChannel}
    {tr : Trace} {c : ConnId} {n : Int}
    (hc : t.conn = some c)
    (hw : env.connWrite (armWriteDeadline deadline c tr) c p = (n, some Error.ErrClosedPipe)) :
    WriteBody env deadline p t tr =
      (let tr3 := armWriteDeadline deadline c tr ++ [Event.write c p, Event.close c]
       let tr4 := tr3 ++ [Event.now]
       if (env.timeNow tr3).After deadline then
         .exit n (some Error.ErrClosedPipe) t tr4
       else
         let r := if t.timeout > 0 then env.netDialTimeout tr4 t.proto t.peerAddr t.timeout
                  else env.netDial tr4 t.proto t.peerAddr
         let tr5 := tr4 ++ [if t.timeout > 0 then Event.dialTimeout t.proto t.peerAddr t.timeout
                            else Event.dial t.proto t.peerAddr]
         match r.err with
         | some e1 => .exit n (some e1) { t with conn := r.conn } tr5
         | none => .again { t with conn := r.conn } tr5) := by
  unfold WriteBody
  simp only [hc, hw, List.append_assoc, List.singleton_append, if_true]

/-- A pass on a channel with a positive timeout whose write attempt fails with the
closed-pipe error. -/
theorem WriteBody_closed_timed {env : Env} {deadline : Time} {p : Bytes} {t : SocketChannel}
    {tr : Trace} {c : ConnId} {n : Int} {proto addr : String} {T : Duration}
    (hc : t.conn = some c)
    (hw : env.connWrite (armWriteDeadline deadline c tr) c p = (n, some Error.ErrClosedPipe))
    (hT : 0 < T) (h1 : t.timeout = T) (h2 : t.proto = proto) (h3 : t.peerAddr = addr) :
    WriteBody env deadline p t tr =
      if (env.timeNow (armWriteDeadline deadline c tr ++ [Event.write c p, Event.close c])).After
          deadline = true then
        .exit n (some Error.ErrClosedPipe) t
          (armWriteDeadline deadline c tr ++ [Event.write c p, Event.close c] ++ [Event.now])
      else
        match env.netDialTimeout
            (armWriteDeadline deadline c tr ++ [Event.write c p, Event.close c] ++ [Event.now])
            proto addr T with
        | .failed e =>
          .exit n (some e) { t with conn := none }
            (armWriteDeadline deadline c tr ++ [Event.write c p, Event.close c] ++ [Event.now]
              ++ [Event.dialTimeout proto addr T])
        | .ok c1 =>
          .again { t with conn := some c1 }
            (armWriteDeadline deadline c tr ++ [Event.write c p, Event.close c] ++ [Event.now]
              ++ [Event.dialTimeout proto addr T]) := by
  subst h1 h2 h3
  rw [WriteBody_closed hc hw]
  have hT2 : t.timeout > 0 := hT
  simp only [hT2, if_true]
  split
  · rfl
  · cases env.netDialTimeout
      (armWriteDeadline deadline c tr ++ [Event.write c p, Event.close c] ++ [Event.now])
      t.proto t.peerAddr t.timeout <;> rfl

/-- The value of an unset deadline has a negative `UnixNano`. -/
theorem Time.zero_UnixNano : Time.zero.UnixNano = -6795364578871345152 := by decide

/-- The function `Write` is its loop started at the deadline it computes. -/
theorem Write_eq_loop (env : Env) (fuel : Nat) (t : SocketChannel) (p : Bytes) (tr : Trace) :
    Write env fuel t p tr =
      WriteLoop env (WriteDeadline env t tr).1 p fuel t (WriteDeadline env t tr).2 := rfl

/-- With enough fuel, `Write` returns what the pass at a reached loop head exits with. -/
theorem Write_of_head_exit {env : Env} {t tk t1 : SocketChannel} {p : Bytes}
    {tr trk tr1 : Trace} {k : Nat} {n : Int} {err : Option Error}
    (hk : WriteHead env (WriteDeadline env t tr).1 p k t (WriteDeadline env t tr).2
      = some (tk, trk))
    (hb : WriteBody env (WriteDeadline env t tr).1 p tk trk = .exit n err t1 tr1)
    (fuel : Nat) (hf : k < fuel) :
    Write env fuel t p tr = .returned ((n, err), t1, tr1) := by
  obtain ⟨f, rfl⟩ : ∃ f, fuel = k + (f + 1) := ⟨fuel - k - 1, by omega⟩
  rw [Write_eq_loop, WriteLoop_of_head k (f + 1) hk, WriteLoop, hb]

theorem WriteDeadline_timed {env : Env} {t : SocketChannel} {tr : Trace} (hT : 0 < t.timeout) :
    WriteDeadline env t tr = ((env.timeNow tr).Add t.timeout, tr ++ [Event.now]) := by
  simp [WriteDeadline, hT]

/-- On a channel without a positive timeout, in a world whose clock is after the
zero time, a closed-pipe failure of the first write makes `Write` close the
connection and return that error: no dial is made. -/
theorem Write_untimed_closed_pipe {env : Env} {t : SocketChannel} {p : Bytes} {tr : Trace}
    {c : ConnId} {n : Int}
    (hT : t.timeout ≤ 0) (hc : t.conn = some c)
    (hw : env.connWrite tr c p = (n, some Error.ErrClosedPipe))
    (hnow : (env.timeNow (tr ++ [Event.write c p, Event.close c])).After Time.zero = true)
    (fuel : Nat) :
    Write env (fuel + 1) t p tr =
      .returned ((n, some Error.ErrClosedPipe), t,
        tr ++ [Event.write c p, Event.close c, Event.now]) := by
  have hT2 : ¬ (t.timeout > 0) := not_lt.mpr hT
  have hd : WriteDeadline env t tr = (Time.zero, tr) := by simp [WriteDeadline, hT2]
  have harm : armWriteDeadline Time.zero c tr = tr := by
    simp [armWriteDeadline, Time.zero_UnixNano]
  have hb : WriteBody env Time.zero p t tr =
      .exit n (some Error.ErrClosedPipe) t
        (tr ++ [Event.write c p, Event.close c, Event.now]) := by
    rw [WriteBody_closed hc (by rw [harm]; exact hw)]
    simp only [harm]
    rw [if_pos hnow]
    simp
  rw [Write_eq_loop, hd, WriteLoop, hb]

end SocketChannel

/-! ## Lemmas on the handler map -/

theorem find?_congr_pred {α : Type} (l : List α) (p q : α → Bool) (h : ∀ a, p a = q a) :
    l.find? p = l.find? q := by
  have : p = q := funext h
  rw [this]

theorem HandlerMap.get_set (m : HandlerMap) (k s : String) (v : URLHandler) :
    (m.set k v).get s = if k = s then some v else m.get s := by
  unfold HandlerMap.get HandlerMap.set
  by_cases hks : k = s
  · simp [List.find?_cons, hks]
  · have hfind : (List.filter (fun e => decide (e.1 ≠ k)) m).find? (fun e => decide (e.1 = s))
        = m.find? (fun e => decide (e.1 = s)) := by
      rw [List.find?_filter]
      apply find?_congr_pred
      intro a
      by_cases has : a.1 = s
      · have hak : a.1 ≠ k := fun h => hks (h.symm.trans has)
        simp [has, hak]
        exact fun h => hks h.symm
      · simp [has]
    simp only [List.find?_cons, hks, decide_False, if_false]
    rw [hfind]

theorem lastRegistered_append (calls : List (String × URLHandler)) (c : String × URLHandler)
    (s : String) :
    lastRegistered (calls ++ [c]) s = if c.1 = s then some c.2 else lastRegistered calls s := by
  unfold lastRegistered
  by_cases hcs : c.1 = s
  · simp [List.find?_cons, hcs]
  · simp [List.find?_cons, hcs]

theorem registerAll_get (m : HandlerMap) (calls : List (String × URLHandler)) (s : String) :
    (registerAll m calls).get s =
      match lastRegistered calls s with
      | some h => some h
      | none => m.get s := by
  induction calls using List.reverseRecOn with
  | nil => simp [registerAll, lastRegistered]
  | append_singleton cs c ih =>
    have hreg : registerAll m (cs ++ [c]) = (registerAll m cs).set c.1 c.2 := by
      simp [registerAll, RegisterURLHandler]
    rw [hreg, HandlerMap.get_set, lastRegistered_append]
    by_cases hcs : c.1 = s
    · simp [hcs]
    · simp only [hcs, if_false]
      exact ih

theorem lastRegistered_filter (calls : List (String × URLHandler)) (s : String) :
    lastRegistered (calls.filter (fun c => decide (c.1 = s))) s = lastRegistered calls s := by
  unfold lastRegistered
  rw [← List.filter_reverse, List.find?_filter]
  have hp : calls.reverse.find?
        (fun a => decide (decide (a.1 = s) = true ∧ decide (a.1 = s) = true))
      = calls.reverse.find? (fun c => decide (c.1 = s)) := by
    apply find?_congr_pred
    intro a
    simp
  rw [hp]

/-! ## Lemmas on `ChannelFromString` -/

/-- A constructor call that reports an error returns a nil channel. -/
theorem NewSocketChannel_error_nil {env : Env} {proto dest : String} {timeout : Duration}
    {tr tr1 : Trace} {c : ChannelVal} {e : Error}
    (h : NewSocketChannel env proto dest timeout tr = ((c, some e), tr1)) : c = none := by
  unfold NewSocketChannel at h
  simp only at h
  split at h
  · simp only [Prod.mk.injEq] at h
    exact h.1.1.symm
  · simp at h

/-- When the parse fails and a fallback dial succeeds, `ChannelFromString` goes on to
`ChannelFromURL` with the nil URL and aborts there. -/
theorem ChannelFromString_fallback_success_aborts (env : Env) (m : HandlerMap)
    (dest : String) (timeout : Duration) (tr : Trace) (e : Error)
    (hp : env.urlParse dest = .failed e)
    (hd : (NewSocketChannel env "tcp" dest timeout tr).1.2 = none ∨
      (NewSocketChannel env "udp" dest timeout
        (NewSocketChannel env "tcp" dest timeout tr).2).1.2 = none) :
    ChannelFromString env m dest timeout tr = .nilDeref := by
  unfold ChannelFromString
  simp only [hp, ParseResult.err, ParseResult.url]
  rcases h1 : NewSocketChannel env "tcp" dest timeout tr with ⟨⟨c1, e1⟩, tr1⟩
  rw [h1] at hd
  cases e1 with
  | none => rfl
  | some e1 =>
    simp only
    rcases h2 : NewSocketChannel env "udp" dest timeout tr1 with ⟨⟨c2, e2⟩, tr2⟩
    rw [h2] at hd
    cases e2 with
    | none => rfl
    | some e2 => simp at hd

/-! ## The properties -/

/-- C2: for every buffer `p` and every channel state, when a write attempt inside
`Write` (the attempt at the loop head reached after `k` closed-pipe passes, for any
`k`) is not a closed-pipe failure, that is it succeeds or fails with another error,
`Write` returns with enough fuel, and what it returns is that attempt's `(n, err)`
unchanged.  The attempt was given the whole buffer `p`, the write is the last call
made (no close, no dial, no further write follows it), and the channel is the one
the attempt started from, so its connection is unchanged. -/
theorem Write_returns_first_final_attempt (env : Env) (t : SocketChannel) (p : Bytes)
    (tr : Trace) (k : Nat) (tk : SocketChannel) (trk : Trace) (c : ConnId) (n : Int)
    (err : Option Error)
    (hk : SocketChannel.WriteHead env (SocketChannel.WriteDeadline env t tr).1 p k t
      (SocketChannel.WriteDeadline env t tr).2 = some (tk, trk))
    (hc : tk.conn = some c)
    (hw : env.connWrite
      (SocketChannel.armWriteDeadline (SocketChannel.WriteDeadline env t tr).1 c trk) c p
        = (n, err))
    (he : err ≠ some Error.ErrClosedPipe) :
    ∀ fuel, k < fuel →
      SocketChannel.Write env fuel t p tr =
        .returned ((n, err), tk,
          SocketChannel.armWriteDeadline (SocketChannel.WriteDeadline env t tr).1 c trk
            ++ [Event.write c p]) := by
  intro fuel hf
  exact SocketChannel.Write_of_head_exit hk (SocketChannel.WriteBody_final hc hw he) fuel hf

/-- Witness of C2: in `worldBrokenPipe` the first attempt on connection 1 fails with
the closed-pipe error, the redial gives connection 5, and the second attempt, which
succeeds with `n = 3`, is what `Write` returns. -/
theorem Write_returns_first_final_attempt_witness :
    SocketChannel.Write worldBrokenPipe 2 chanTimed [1, 2, 3] [] =
      .returned ((3, none), { chanTimed with conn := some 5 },
        [Event.now, Event.setWriteDeadline 1 ⟨1700000000000000005⟩, Event.write 1 [1, 2, 3],
         Event.close 1, Event.now, Event.dialTimeout "tcp" "h:1" 5,
         Event.setWriteDeadline 5 ⟨1700000000000000005⟩, Event.write 5 [1, 2, 3]]) :=
  Write_returns_first_final_attempt worldBrokenPipe chanTimed [1, 2, 3] [] 1
    { chanTimed with conn := some 5 }
    [Event.now, Event.setWriteDeadline 1 ⟨1700000000000000005⟩, Event.write 1 [1, 2, 3],
     Event.close 1, Event.now, Event.dialTimeout "tcp" "h:1" 5]
    5 3 none (by decide) rfl (by decide) (by decide) 2 (by decide)

/-- C1: on a channel with timeout `T > 0`, take any write attempt inside `Write`
(at the loop head reached after `k` passes) that fails with the closed-pipe error.
The deadline is the clock reading at the start of the call plus `T`.  After the
write the connection is closed and the clock is read.  If that reading is after
the deadline, `Write` returns the closed-pipe error and no dial is made.  Otherwise
exactly one `DialTimeout(proto, peerAddr, T)` is made: if it fails with `e`, `Write`
returns `e`; if it gives `c1`, the loop goes round with `c1` installed as the
connection, and the next pass hands the whole buffer `p` to `c1`. -/
theorem Write_closed_pipe_with_timeout (env : Env) (t : SocketChannel) (p : Bytes)
    (tr : Trace) (k : Nat) (tk : SocketChannel) (trk : Trace) (c : ConnId) (n : Int)
    (hT : 0 < t.timeout)
    (hk : SocketChannel.WriteHead env ((env.timeNow tr).Add t.timeout) p k t
      (tr ++ [Event.now]) = some (tk, trk))
    (hc : tk.conn = some c)
    (hw : env.connWrite
      (SocketChannel.armWriteDeadline ((env.timeNow tr).Add t.timeout) c trk) c p
        = (n, some Error.ErrClosedPipe)) :
    let deadline := (env.timeNow tr).Add t.timeout
    let tr3 := SocketChannel.armWriteDeadline deadline c trk ++ [Event.write c p, Event.close c]
    let tr4 := tr3 ++ [Event.now]
    let tr5 := tr4 ++ [Event.dialTimeout t.proto t.peerAddr t.timeout]
    ((env.timeNow tr3).After deadline = true →
      ∀ fuel, k < fuel →
        SocketChannel.Write env fuel t p tr =
          .returned ((n, some Error.ErrClosedPipe), tk, tr4)) ∧
    ((env.timeNow tr3).After deadline = false →
      (∀ e, env.netDialTimeout tr4 t.proto t.peerAddr t.timeout = .failed e →
        ∀ fuel, k < fuel →
          SocketChannel.Write env fuel t p tr =
            .returned ((n, some e), { tk with conn := none }, tr5)) ∧
      (∀ c1, env.netDialTimeout tr4 t.proto t.peerAddr t.timeout = .ok c1 →
        SocketChannel.WriteHead env deadline p (k + 1) t (tr ++ [Event.now])
          = some ({ tk with conn := some c1 }, tr5) ∧
        ∃ trn,
          (SocketChannel.WriteBody env deadline p { tk with conn := some c1 } tr5).trace?
            = some trn ∧
          (SocketChannel.armWriteDeadline deadline c1 tr5 ++ [Event.write c1 p]) <+: trn)) := by
  intro deadline tr3 tr4 tr5
  have hd : SocketChannel.WriteDeadline env t tr = _ := SocketChannel.WriteDeadline_timed hT
  have hf := SocketChannel.WriteHead_fields k hk
  have hb : SocketChannel.WriteBody env deadline p tk trk = _ :=
    SocketChannel.WriteBody_closed_timed hc hw hT hf.2.1 hf.2.2.1 hf.1
  have hk2 : SocketChannel.WriteHead env (SocketChannel.WriteDeadline env t tr).1 p k t
      (SocketChannel.WriteDeadline env t tr).2 = some (tk, trk) := by rw [hd]; exact hk
  refine ⟨?_, ?_⟩
  · intro hafter fuel hfuel
    rw [if_pos hafter] at hb
    have hb2 : SocketChannel.WriteBody env (SocketChannel.WriteDeadline env t tr).1 p tk trk
        = .exit n (some Error.ErrClosedPipe) tk tr4 := by rw [hd]; exact hb
    exact SocketChannel.Write_of_head_exit hk2 hb2 fuel hfuel
  · intro hafter
    have hna : ¬ ((env.timeNow tr3).After deadline = true) := by simp [hafter]
    rw [if_neg hna] at hb
    refine ⟨?_, ?_⟩
    · intro e hdial fuel hfuel
      have hdial2 : env.netDialTimeout
          (SocketChannel.armWriteDeadline deadline c trk ++ [Event.write c p, Event.close c]
            ++ [Event.now]) t.proto t.peerAddr t.timeout = .failed e := hdial
      rw [hdial2] at hb
      have hb2 : SocketChannel.WriteBody env (SocketChannel.WriteDeadline env t tr).1 p tk trk
          = .exit n (some e) { tk with conn := none } tr5 := by rw [hd]; exact hb
      exact SocketChannel.Write_of_head_exit hk2 hb2 fuel hfuel
    · intro c1 hdial
      have hdial2 : env.netDialTimeout
          (SocketChannel.armWriteDeadline deadline c trk ++ [Event.write c p, Event.close c]
            ++ [Event.now]) t.proto t.peerAddr t.timeout = .ok c1 := hdial
      rw [hdial2] at hb
      have hb2 : SocketChannel.WriteBody env deadline p tk trk
          = .again { tk with conn := some c1 } tr5 := hb
      refine ⟨SocketChannel.WriteHead_succ k hk hb2, ?_⟩
      rcases hres : env.connWrite (SocketChannel.armWriteDeadline deadline c1 tr5) c1 p
        with ⟨n1, err1⟩
      by_cases hcp : err1 = some Error.ErrClosedPipe
      · subst hcp
        have hb3 : SocketChannel.WriteBody env deadline p { tk with conn := some c1 } tr5 = _ :=
          SocketChannel.WriteBody_closed rfl hres
        rw [hb3]
        simp only
        split
        · exact ⟨_, rfl, by simp⟩
        · split
          · exact ⟨_, rfl, by simp⟩
          · exact ⟨_, rfl, by simp⟩
      · have hb3 : SocketChannel.WriteBody env deadline p { tk with conn := some c1 } tr5 = _ :=
          SocketChannel.WriteBody_final rfl hres hcp
        rw [hb3]
        exact ⟨_, rfl, List.prefix_refl _⟩

/-- Witness of C1: in `worldBrokenPipe`, at the first attempt of a `Write` on the timed
channel (`k = 0`), the clock is not past the deadline after the close, the timed
redial gives connection 5, and the loop goes round with connection 5 installed. -/
theorem Write_closed_pipe_with_timeout_witness :
    SocketChannel.WriteHead worldBrokenPipe ⟨1700000000000000005⟩ [1, 2, 3] 1 chanTimed
        [Event.now] =
      some ({ chanTimed with conn := some 5 },
        [Event.now, Event.setWriteDeadline 1 ⟨1700000000000000005⟩, Event.write 1 [1, 2, 3],
         Event.close 1, Event.now, Event.dialTimeout "tcp" "h:1" 5]) :=
  (((Write_closed_pipe_with_timeout worldBrokenPipe chanTimed [1, 2, 3] [] 0 chanTimed
      [Event.now] 1 0 (by decide) rfl rfl (by decide)).2 (by decide)).2 5 (by decide)).1

/-- C3: the code at the failing input.  On the channel without a timeout the write on
connection 1 fails with the closed-pipe error; `Write` closes the connection, reads
the clock and returns the closed-pipe error.  No dial is made and the connection
is not replaced, although an untimed dial at that point would have succeeded. -/
theorem Write_untimed_returns_closed_pipe :
    SocketChannel.Write worldBrokenPipe 3 chanUntimed [1, 2, 3] [] =
        .returned ((0, some Error.ErrClosedPipe), chanUntimed,
          [Event.write 1 [1, 2, 3], Event.close 1, Event.now]) ∧
      worldBrokenPipe.netDial [Event.write 1 [1, 2, 3], Event.close 1, Event.now]
        chanUntimed.proto chanUntimed.peerAddr = .ok 2 := by
  decide

/-- C4: the code at the failing input.  `SetWriteDeadline` and `SetReadDeadline` set
`manualTimeout`, yet the `Write` and the `Read` that follow still set the automatic
deadline, the clock reading plus the timeout, on the connection. -/
theorem manual_deadline_is_overridden :
    SocketChannel.SetWriteDeadline worldBrokenPipe chanHealthy ⟨99⟩ [] =
        .returned (none, { chanHealthy with manualTimeout := true },
          [Event.setWriteDeadline 2 ⟨99⟩]) ∧
      SocketChannel.Write worldBrokenPipe 1 { chanHealthy with manualTimeout := true } [1, 2, 3]
          [Event.setWriteDeadline 2 ⟨99⟩] =
        .returned ((3, none), { chanHealthy with manualTimeout := true },
          [Event.setWriteDeadline 2 ⟨99⟩, Event.now,
           Event.setWriteDeadline 2 ⟨1700000000000000006⟩, Event.write 2 [1, 2, 3]]) ∧
      SocketChannel.SetReadDeadline worldBrokenPipe chanHealthy ⟨99⟩ [] =
        .returned (none, { chanHealthy with manualTimeout := true },
          [Event.setReadDeadline 2 ⟨99⟩]) ∧
      SocketChannel.Read worldBrokenPipe { chanHealthy with manualTimeout := true } [0, 0]
          [Event.setReadDeadline 2 ⟨99⟩] =
        .returned (([0, 0], 0, some (Error.Foreign 7)),
          { chanHealthy with manualTimeout := true },
          [Event.setReadDeadline 2 ⟨99⟩, Event.now,
           Event.setReadDeadline 2 ⟨1700000000000000006⟩, Event.read 2 [0, 0]]) := by
  decide

/-- C5: on a channel that holds a connection `c`, `Read` returns exactly what the one
call `c.Read(p)` answers, buffer, `n` and `err` alike.  The calls it makes are the
clock reading and `SetReadDeadline` when the timeout is positive, then that single
read: no close, no dial, no second read.  The channel is returned unchanged. -/
theorem Read_returns_underlying (env : Env) (t : SocketChannel) (p : Bytes) (tr : Trace)
    (c : ConnId) (hc : t.conn = some c) :
    SocketChannel.Read env t p tr =
      .returned
        (env.connRead
          (if t.timeout > 0 then
            tr ++ [Event.now, Event.setReadDeadline c ((env.timeNow tr).Add t.timeout)]
           else tr) c p,
         t,
         (if t.timeout > 0 then
            tr ++ [Event.now, Event.setReadDeadline c ((env.timeNow tr).Add t.timeout)]
          else tr) ++ [Event.read c p]) := by
  unfold SocketChannel.Read
  by_cases hT : t.timeout > 0
  · simp [hT, hc]
  · simp [hT, hc]

/-- Witness of C5: in `worldBrokenPipe` the read on connection 1 fails with error 7 and
`Read` on the channel without a timeout returns that error. -/
theorem Read_returns_underlying_witness :
    SocketChannel.Read worldBrokenPipe chanUntimed [0, 0] [] =
      .returned (([0, 0], 0, some (Error.Foreign 7)), chanUntimed, [Event.read 1 [0, 0]]) :=
  Read_returns_underlying worldBrokenPipe chanUntimed [0, 0] [] 1 rfl

/-- C9: the code at the failing input.  The constructor succeeds with connection 1.
The write fails with the closed-pipe error before the deadline and the redial is
refused: `Write` returns the dial error and leaves the channel with a nil
connection.  The next `Close`, `Read`, `Write`, `LocalAddr`, `RemoteAddr` and
`SetDeadline` each abort on the nil connection. -/
theorem nil_connection_after_failed_redial :
    NewSocketChannel worldDialOnce "tcp" "h:1" 5 [] =
        ((some chanTimed, none), [Event.dialTimeout "tcp" "h:1" 5]) ∧
      SocketChannel.Write worldDialOnce 1 chanTimed [1, 2, 3] [Event.dialTimeout "tcp" "h:1" 5] =
        .returned ((0, some (Error.Foreign 2)), { chanTimed with conn := none },
          [Event.dialTimeout "tcp" "h:1" 5, Event.now,
           Event.setWriteDeadline 1 ⟨1700000000000000006⟩, Event.write 1 [1, 2, 3],
           Event.close 1, Event.now, Event.dialTimeout "tcp" "h:1" 5]) ∧
      (∀ tr, SocketChannel.Close worldDialOnce { chanTimed with conn := none } tr
        = .nilDeref) ∧
      (∀ p tr, SocketChannel.Read worldDialOnce { chanTimed with conn := none } p tr
        = .nilDeref) ∧
      (∀ fuel p tr, SocketChannel.Write worldDialOnce (fuel + 1)
        { chanTimed with conn := none } p tr = .nilDeref) ∧
      (∀ tr, SocketChannel.LocalAddr worldDialOnce { chanTimed with conn := none } tr
        = .nilDeref) ∧
      (∀ tr, SocketChannel.RemoteAddr worldDialOnce { chanTimed with conn := none } tr
        = .nilDeref) ∧
      (∀ d tr, SocketChannel.SetDeadline worldDialOnce { chanTimed with conn := none } d tr
        = .nilDeref) := by
  refine ⟨by decide, by decide, fun _ => rfl, fun _ _ => rfl, fun _ _ _ => rfl, fun _ => rfl,
    fun _ => rfl, fun _ _ => rfl⟩

/-- C10: in every state of a socket channel, `NumBackends` returns 1,
`GetAllSubchannels` returns the one-element list holding the channel itself,
`NextBackend` leaves every field of the channel as it was, and `WaitForNonEmpty`
returns a nil error for every duration. -/
theorem single_backend_invariants (t : SocketChannel) (d : Duration) :
    SocketChannel.NumBackends t = 1 ∧
      SocketChannel.GetAllSubchannels t = [some t] ∧
      SocketChannel.NextBackend t = t ∧
      SocketChannel.WaitForNonEmpty t d = none :=
  ⟨rfl, rfl, rfl, rfl⟩

/-- C7: after any chronological list of `RegisterURLHandler` calls made on the empty
map, `ChannelFromURL(u, timeout)` is a lookup of the last handler registered for
`u.Scheme`, compared as a string, case and all.  When there is one, the result is
exactly what that handler returns on `(u, timeout)`; when there is none, no handler
runs, no call to the outside world is made, and the result is a nil channel with an
error whose message is "No handler registered for schema " followed by the scheme.
The calls that registered other schemes can be dropped without changing the result. -/
theorem ChannelFromURL_last_registered (calls : List (String × URLHandler)) (u : URL)
    (timeout : Duration) (tr : Trace) :
    (ChannelFromURL (registerAll urlHandlers calls) (some u) timeout tr =
      match lastRegistered calls u.Scheme with
      | some h => h (some u) timeout tr
      | none =>
        .returned
          ((none, some (Error.New ("No handler registered for schema " ++ u.Scheme))), tr)) ∧
    (Error.New ("No handler registered for schema " ++ u.Scheme)).message
      = "No handler registered for schema " ++ u.Scheme ∧
    ChannelFromURL (registerAll urlHandlers calls) (some u) timeout tr =
      ChannelFromURL
        (registerAll urlHandlers (calls.filter (fun c => decide (c.1 = u.Scheme))))
        (some u) timeout tr := by
  have key : ∀ cs : List (String × URLHandler),
      ChannelFromURL (registerAll urlHandlers cs) (some u) timeout tr =
        match lastRegistered cs u.Scheme with
        | some h => h (some u) timeout tr
        | none =>
          .returned
            ((none, some (Error.New ("No handler registered for schema " ++ u.Scheme))), tr) := by
    intro cs
    unfold ChannelFromURL
    simp only [registerAll_get]
    cases lastRegistered cs u.Scheme with
    | some h => rfl
    | none => rfl
  refine ⟨key calls, rfl, ?_⟩
  rw [key calls, key (calls.filter _), lastRegistered_filter]

/-- C6: the code at the failing input.  The address does not parse as a URL.  In
`worldBrokenPipe` the tcp dial succeeds, in `worldUdpOnly` the tcp dial is refused
and the udp dial succeeds.  In both, `ChannelFromString` returns no channel: it
aborts on the nil URL it passes to `ChannelFromURL`. -/
theorem ChannelFromString_aborts_after_fallback_dial :
    worldBrokenPipe.urlParse "127.0.0.1:9" = .failed (Error.Foreign 1) ∧
      (NewSocketChannel worldBrokenPipe "tcp" "127.0.0.1:9" 0 []).1.2 = none ∧
      ChannelFromString worldBrokenPipe (init worldBrokenPipe urlHandlers) "127.0.0.1:9" 0 []
        = .nilDeref ∧
      worldUdpOnly.urlParse "127.0.0.1:9" = .failed (Error.Foreign 1) ∧
      (NewSocketChannel worldUdpOnly "tcp" "127.0.0.1:9" 0 []).1.2 = some (Error.Foreign 2) ∧
      (NewSocketChannel worldUdpOnly "udp" "127.0.0.1:9" 0
        [Event.dial "tcp" "127.0.0.1:9"]).1.2 = none ∧
      ChannelFromString worldUdpOnly (init worldUdpOnly urlHandlers) "127.0.0.1:9" 0 []
        = .nilDeref := by
  refine ⟨rfl, by decide, ?_, rfl, by decide, by decide, ?_⟩
  · exact ChannelFromString_fallback_success_aborts _ _ _ _ _ _ rfl (Or.inl (by decide))
  · exact ChannelFromString_fallback_success_aborts _ _ _ _ _ _ rfl (Or.inr (by decide))

/-- C8, as stated, fails: in `worldNoDial` the parse fails with error 1, the tcp dial
with error 2 and the udp dial with error 3, and `ChannelFromString` returns error 1,
the parse error, not the error of either dial. -/
theorem ChannelFromString_returns_parse_error_example :
    worldNoDial.urlParse "127.0.0.1:9" = .failed (Error.Foreign 1) ∧
      NewSocketChannel worldNoDial "tcp" "127.0.0.1:9" 0 [] =
        ((none, some (Error.Foreign 2)), [Event.dial "tcp" "127.0.0.1:9"]) ∧
      NewSocketChannel worldNoDial "udp" "127.0.0.1:9" 0 [Event.dial "tcp" "127.0.0.1:9"] =
        ((none, some (Error.Foreign 3)),
          [Event.dial "tcp" "127.0.0.1:9", Event.dial "udp" "127.0.0.1:9"]) ∧
      ChannelFromString worldNoDial (init worldNoDial urlHandlers) "127.0.0.1:9" 0 [] =
        .returned ((none, some (Error.Foreign 1)),
          [Event.dial "tcp" "127.0.0.1:9", Event.dial "udp" "127.0.0.1:9"]) ∧
      Error.Foreign 1 ≠ Error.Foreign 2 ∧ Error.Foreign 1 ≠ Error.Foreign 3 := by
  refine ⟨rfl, by decide, by decide, ?_, by decide, by decide⟩
  unfold ChannelFromString
  have h1 : NewSocketChannel worldNoDial "tcp" "127.0.0.1:9" 0 [] =
      ((none, some (Error.Foreign 2)), [Event.dial "tcp" "127.0.0.1:9"]) := by decide
  have h2 : NewSocketChannel worldNoDial "udp" "127.0.0.1:9" 0
      [Event.dial "tcp" "127.0.0.1:9"] =
      ((none, some (Error.Foreign 3)),
        [Event.dial "tcp" "127.0.0.1:9", Event.dial "udp" "127.0.0.1:9"]) := by decide
  have hp : worldNoDial.urlParse "127.0.0.1:9" = .failed (Error.Foreign 1) := rfl
  simp only [hp, ParseResult.err, ParseResult.url, h1, h2]

/-- C8, amended: when the address fails to parse as a URL with error `e` and both
fallback constructor calls, tcp then udp, report an error, `ChannelFromString`
returns a nil channel and the parse error `e`; the errors of the two dials are
dropped.  The calls made are the two dials. -/
theorem ChannelFromString_returns_parse_error (env : Env) (m : HandlerMap) (dest : String)
    (timeout : Duration) (tr tr1 tr2 : Trace) (e e1 e2 : Error) (c1 c2 : ChannelVal)
    (hp : env.urlParse dest = .failed e)
    (h1 : NewSocketChannel env "tcp" dest timeout tr = ((c1, some e1), tr1))
    (h2 : NewSocketChannel env "udp" dest timeout tr1 = ((c2, some e2), tr2)) :
    ChannelFromString env m dest timeout tr = .returned ((none, some e), tr2) := by
  have hc2 := NewSocketChannel_error_nil h2
  subst hc2
  unfold ChannelFromString
  simp only [hp, ParseResult.err, ParseResult.url, h1, h2]

/-- Witness of the amended C8 in `worldNoDial`, with the registry as `init` leaves it. -/
theorem ChannelFromString_returns_parse_error_witness :
    ChannelFromString worldNoDial (init worldNoDial urlHandlers) "127.0.0.1:9" 0 [] =
      .returned ((none, some (Error.Foreign 1)),
        [Event.dial "tcp" "127.0.0.1:9", Event.dial "udp" "127.0.0.1:9"]) :=
  ChannelFromString_returns_parse_error worldNoDial (init worldNoDial urlHandlers)
    "127.0.0.1:9" 0 [] [Event.dial "tcp" "127.0.0.1:9"]
    [Event.dial "tcp" "127.0.0.1:9", Event.dial "udp" "127.0.0.1:9"]
    (Error.Foreign 1) (Error.Foreign 2) (Error.Foreign 3) none none rfl (by decide) (by decide)

end Channel
